import Mathlib

/-!
# The npm build component: build orchestration, strategy selection, detection

A shallow embedding of `npm/build.go` (the `Build` function) together with the
parts of the package that the build and detect phases rely on.

Conventions of the embedding.

* A Go function returning `(T, error)` becomes a function returning
  `T × Option GoError`; `err != nil` is `some err`.
* Everything `Build` calls outside its own body (the layer store, the build
  manager, the resolved build process, the clock, the operating system) is a
  collaborator.  Collaborators are arbitrary functions over an explicit world
  state `σ`: each call receives the current world and returns its answer with
  the next world.
* Every collaborator call is recorded, with its arguments and its answer, in
  the order in which it is made (`Outcome.calls`).  Logger calls are recorded
  separately (`Outcome.log`).
-/

namespace Npm

/-! ## Values shared with the build framework -/

/-- A Go `error` value: its message, and whether `os.IsNotExist` holds of it. -/
structure GoError where
  msg : String
  notExist : Bool
deriving DecidableEq, Repr

/-- The `map[string]interface{}` of a layer's metadata; `[]` is the nil map. -/
abbrev MetadataMap := List (String × String)

/-- A point in time as returned by `Clock.Now`. -/
abbrev Time := Nat

/-- One modifier call received by a `packit.Environment`. -/
inductive EnvOp where
  | Override (name value : String)
  | Default (name value : String)
  | Append (name value delim : String)
  | Prepend (name value delim : String)
deriving DecidableEq, Repr

/-- The variable a modifier call is about. -/
def EnvOp.name : EnvOp → String
  | .Override n _ => n
  | .Default n _ => n
  | .Append n _ _ => n
  | .Prepend n _ _ => n

/-- A `packit.Environment`, kept as the modifier calls it has received, oldest first. -/
structure Environment where
  ops : List EnvOp
deriving DecidableEq, Repr

/-- `Environment.Override(name, value)`. -/
def Environment.Override (e : Environment) (name value : String) : Environment :=
  ⟨e.ops ++ [EnvOp.Override name value]⟩

/-- `Environment.Append(name, value, delim)`. -/
def Environment.Append (e : Environment) (name value delim : String) : Environment :=
  ⟨e.ops ++ [EnvOp.Append name value delim]⟩

/-- `packit.LayerType`. -/
inductive LayerType where
  | BuildLayer
  | CacheLayer
  | LaunchLayer
deriving DecidableEq, Repr

/-- `packit.Layer`. -/
structure Layer where
  Path : String
  Name : String
  Build : Bool
  Launch : Bool
  Cache : Bool
  SharedEnv : Environment
  BuildEnv : Environment
  LaunchEnv : Environment
  Metadata : MetadataMap
deriving DecidableEq, Repr

/-- `packit.BuildpackPlanEntry`. -/
structure BuildpackPlanEntry where
  Name : String
  Version : String
  Metadata : MetadataMap
deriving DecidableEq, Repr

/-- `packit.BuildpackPlan`. -/
structure BuildpackPlan where
  Entries : List BuildpackPlanEntry
deriving DecidableEq, Repr

/-- `packit.Process`; `ProcessType` is the Go field `Type`. -/
structure Process where
  ProcessType : String
  Command : String
deriving DecidableEq, Repr

/-- `packit.BuildResult`. -/
structure BuildResult where
  Plan : BuildpackPlan
  Layers : List Layer
  Processes : List Process
deriving DecidableEq, Repr

/-- The zero value `packit.BuildResult{}`. -/
def BuildResult.empty : BuildResult := ⟨⟨[]⟩, [], []⟩

/-- `packit.BuildpackInfo`. -/
structure BuildpackInfo where
  ID : String
  Name : String
  Version : String
deriving DecidableEq, Repr

/-- `filepath.Join` on a Unix platform, for elements that are already in clean
form (no `.` or `..` components, no doubled or trailing separators), where the
final `Clean` pass changes nothing: the non-empty elements joined with `/`. -/
def filepathJoin (elems : List String) : String :=
  String.intercalate "/" (elems.filter (fun s => s ≠ ""))

/-- `LayerNameNodeModules`, build.go line 15. -/
def LayerNameNodeModules : String := "modules"

/-- `LayerNameCache`, build.go line 16. -/
def LayerNameCache : String := "npm-cache"

/-! ## Collaborators -/

/-- The `BuildProcess` interface: what `Resolve` hands back. -/
structure BuildProcess (σ : Type) where
  ShouldRun : String → MetadataMap → σ → (Bool × String × Option GoError) × σ
  Run : String → String → String → σ → Option GoError × σ

/-- The `BuildManager` interface, build.go lines 20-22. -/
structure BuildManager (σ : Type) where
  Resolve : String → String → σ → (BuildProcess σ × Option GoError) × σ

/-- The `Clock` handed to `Build`. -/
structure Clock (σ : Type) where
  Now : σ → Time × σ

/-- `packit.Layers`: the layer store of the build context. -/
structure Layers (σ : Type) where
  Path : String
  Get : String → List LayerType → σ → (Layer × Option GoError) × σ

/-- `packit.BuildContext`. -/
structure BuildContext (σ : Type) where
  BuildpackInfo : BuildpackInfo
  CNBPath : String
  Layers : Layers σ
  Plan : BuildpackPlan
  Stack : String
  WorkingDir : String

/-- Library and operating-system calls made by `Build`:
`(*packit.Layer).Reset` (answers with the layer as it is after the call),
`os.RemoveAll`, `os.Symlink`, `os.Stat` (only its error is used),
`fs.IsEmptyDir`, `time.Time.Format(time.RFC3339Nano)` and
`os.PathListSeparator`. -/
structure System (σ : Type) where
  Reset : Layer → σ → (Layer × Option GoError) × σ
  RemoveAll : String → σ → Option GoError × σ
  Symlink : String → String → σ → Option GoError × σ
  Stat : String → σ → Option GoError × σ
  IsEmptyDir : String → σ → Bool × σ
  FormatRFC3339Nano : Time → String
  PathListSeparator : String

/-! ## Recorded calls -/

/-- One collaborator call: its arguments followed by its answer. -/
inductive Event where
  | LayersGet (name : String) (layerTypes : List LayerType) (layer : Layer) (err : Option GoError)
  | Resolve (workingDir cacheDir : String) (err : Option GoError)
  | ShouldRun (workingDir : String) (metadata : MetadataMap) (run : Bool) (sha : String)
      (err : Option GoError)
  | Now (t : Time)
  | Reset (receiver after : Layer) (err : Option GoError)
  | Run (layerDir cacheDir workingDir : String) (err : Option GoError)
  | RemoveAll (path : String) (err : Option GoError)
  | Symlink (oldname newname : String) (err : Option GoError)
  | Stat (path : String) (err : Option GoError)
  | IsEmptyDir (path : String) (empty : Bool)
deriving DecidableEq, Repr

/-- The error a recorded call answered with, if it has one. -/
def Event.err : Event → Option GoError
  | .LayersGet _ _ _ e => e
  | .Resolve _ _ e => e
  | .ShouldRun _ _ _ _ e => e
  | .Now _ => none
  | .Reset _ _ e => e
  | .Run _ _ _ e => e
  | .RemoveAll _ e => e
  | .Symlink _ _ e => e
  | .Stat _ e => e
  | .IsEmptyDir _ _ => none

/-- Whether a recorded call is the `os.Stat` probe. -/
def Event.isStat : Event → Bool
  | .Stat _ _ => true
  | _ => false

/-- Whether a recorded call is one of the two read-only checks of the cache
layer path, `os.Stat` and `fs.IsEmptyDir`. -/
def Event.isProbe : Event → Bool
  | .Stat _ _ => true
  | .IsEmptyDir _ _ => true
  | _ => false

/-- Whether a recorded call is `BuildProcess.Run`. -/
def Event.isRun : Event → Bool
  | .Run _ _ _ _ => true
  | _ => false

/-- Whether a recorded call is `Layer.Reset`. -/
def Event.isReset : Event → Bool
  | .Reset _ _ _ => true
  | _ => false

/-- The `scribe.Logger` method of a log call. -/
inductive LogLevel where
  | Title
  | Process
  | Subprocess
  | Action
  | Break
deriving DecidableEq, Repr

/-- One logger call: method, format string, and the string arguments. -/
structure LogEntry where
  level : LogLevel
  format : String
  args : List String
deriving DecidableEq, Repr

/-- The running state of one `Build` invocation. -/
structure Exec (σ : Type) where
  world : σ
  calls : List Event
  log : List LogEntry

/-- Record a collaborator call that left the world in `w`. -/
def Exec.call {σ : Type} (s : Exec σ) (w : σ) (ev : Event) : Exec σ :=
  { s with world := w, calls := s.calls ++ [ev] }

/-- Record a logger call. -/
def Exec.say {σ : Type} (s : Exec σ) (level : LogLevel) (format : String)
    (args : List String) : Exec σ :=
  { s with log := s.log ++ [⟨level, format, args⟩] }

/-- What one `Build` invocation returns and leaves behind. -/
structure Outcome (σ : Type) where
  result : BuildResult
  err : Option GoError
  world : σ
  calls : List Event
  log : List LogEntry

/-- The statement `return packit.BuildResult{}, err`. -/
def Exec.fail {σ : Type} (s : Exec σ) (err : GoError) : Outcome σ :=
  ⟨BuildResult.empty, some err, s.world, s.calls, s.log⟩

/-- The statement `return result, nil`. -/
def Exec.done {σ : Type} (s : Exec σ) (result : BuildResult) : Outcome σ :=
  ⟨result, none, s.world, s.calls, s.log⟩

/-! ## `Build` (build.go lines 24-117) -/

/-- Lines 98-115 of `Build`: the layers to persist and the returned result. -/
def Build.finish {σ : Type} (sys : System σ) (context : BuildContext σ)
    (nodeModulesLayer nodeCacheLayer : Layer) (s : Exec σ) : Outcome σ :=
  let st := sys.Stat nodeCacheLayer.Path s.world
  let s := s.call st.2 (Event.Stat nodeCacheLayer.Path st.1)
  let result (layers : List Layer) : BuildResult :=
    { Plan := context.Plan
      Layers := layers
      Processes := [{ ProcessType := "web", Command := "npm start" }] }
  match st.1 with
  | none =>
    let em := sys.IsEmptyDir nodeCacheLayer.Path s.world
    let s := s.call em.2 (Event.IsEmptyDir nodeCacheLayer.Path em.1)
    if em.1 then s.done (result [nodeModulesLayer])
    else s.done (result [nodeModulesLayer, nodeCacheLayer])
  | some _ => s.done (result [nodeModulesLayer])

/-- Lines 68-77 of `Build`: the metadata and environment written to the modules
layer after a successful run. -/
def Build.record {σ : Type} (sys : System σ) (nodeModulesLayer : Layer) (now : Time)
    (sha : String) : Layer :=
  let layer := { nodeModulesLayer with
    Metadata := [("built_at", sys.FormatRFC3339Nano now), ("cache_sha", sha)] }
  let layer := { layer with
    LaunchEnv := layer.LaunchEnv.Override "NPM_CONFIG_LOGLEVEL" "error" }
  let layer := { layer with
    LaunchEnv := layer.LaunchEnv.Override "NPM_CONFIG_PRODUCTION" "true" }
  let path := filepathJoin [layer.Path, "node_modules", ".bin"]
  { layer with SharedEnv := layer.SharedEnv.Append "PATH" path sys.PathListSeparator }

/-- Lines 51-84 of `Build`, the branch taken when `run` is true.  The elapsed
wall-clock time printed by the "Completed in" line is left out of the log. -/
def Build.execute {σ : Type} (process : BuildProcess σ) (clock : Clock σ) (sys : System σ)
    (context : BuildContext σ) (nodeModulesLayer nodeCacheLayer : Layer) (sha : String)
    (s : Exec σ) : Outcome σ :=
  let s := s.say .Process "Executing build process" []
  let t0 := clock.Now s.world
  let s := s.call t0.2 (Event.Now t0.1)
  let rs := sys.Reset nodeModulesLayer s.world
  let s := s.call rs.2 (Event.Reset nodeModulesLayer rs.1.1 rs.1.2)
  match rs.1.2 with
  | some err => s.fail err
  | none =>
    let nodeModulesLayer := rs.1.1
    let s := s.say .Subprocess "Running 'npm install'" []
    let rn := process.Run nodeModulesLayer.Path nodeCacheLayer.Path context.WorkingDir s.world
    let s := s.call rn.2
      (Event.Run nodeModulesLayer.Path nodeCacheLayer.Path context.WorkingDir rn.1)
    match rn.1 with
    | some err => s.fail err
    | none =>
      let s := s.say .Action "Completed in %s" []
      let s := s.say .Break "" []
      let t1 := clock.Now s.world
      let s := s.call t1.2 (Event.Now t1.1)
      let nodeModulesLayer := Build.record sys nodeModulesLayer t1.1 sha
      let path := filepathJoin [nodeModulesLayer.Path, "node_modules", ".bin"]
      let s := s.say .Process "Configuring environment" []
      let s := s.say .Subprocess "%s"
        ["NPM_CONFIG_LOGLEVEL", "error", "NPM_CONFIG_PRODUCTION", "true", "PATH", "$PATH:" ++ path]
      Build.finish sys context nodeModulesLayer nodeCacheLayer s

/-- Lines 85-96 of `Build`, the branch taken when `run` is false. -/
def Build.reuse {σ : Type} (sys : System σ) (context : BuildContext σ)
    (nodeModulesLayer nodeCacheLayer : Layer) (s : Exec σ) : Outcome σ :=
  let s := s.say .Process "Reusing cached layer %s" [nodeModulesLayer.Path]
  let target := filepathJoin [context.WorkingDir, "node_modules"]
  let rm := sys.RemoveAll target s.world
  let s := s.call rm.2 (Event.RemoveAll target rm.1)
  match rm.1 with
  | some err => s.fail err
  | none =>
    let oldname := filepathJoin [nodeModulesLayer.Path, "node_modules"]
    let ln := sys.Symlink oldname target s.world
    let s := s.call ln.2 (Event.Symlink oldname target ln.1)
    match ln.1 with
    | some err => s.fail err
    | none => Build.finish sys context nodeModulesLayer nodeCacheLayer s

/-- The function `Build(buildManager, clock, logger)` applied to a build
context, started in world `w`. -/
def Build {σ : Type} (buildManager : BuildManager σ) (clock : Clock σ) (sys : System σ)
    (context : BuildContext σ) (w : σ) : Outcome σ :=
  let s : Exec σ := ⟨w, [], []⟩
  let s := s.say .Title "%s %s" [context.BuildpackInfo.Name, context.BuildpackInfo.Version]
  let g1 := context.Layers.Get LayerNameNodeModules [LayerType.LaunchLayer] s.world
  let s := s.call g1.2
    (Event.LayersGet LayerNameNodeModules [LayerType.LaunchLayer] g1.1.1 g1.1.2)
  match g1.1.2 with
  | some err => s.fail err
  | none =>
    let nodeModulesLayer := g1.1.1
    let g2 := context.Layers.Get LayerNameCache [LayerType.CacheLayer] s.world
    let s := s.call g2.2 (Event.LayersGet LayerNameCache [LayerType.CacheLayer] g2.1.1 g2.1.2)
    match g2.1.2 with
    | some err => s.fail err
    | none =>
      let nodeCacheLayer := g2.1.1
      let s := s.say .Process "Resolving installation process" []
      let rv := buildManager.Resolve context.WorkingDir nodeCacheLayer.Path s.world
      let s := s.call rv.2 (Event.Resolve context.WorkingDir nodeCacheLayer.Path rv.1.2)
      match rv.1.2 with
      | some err => s.fail err
      | none =>
        let process := rv.1.1
        let sr := process.ShouldRun context.WorkingDir nodeModulesLayer.Metadata s.world
        let s := s.call sr.2
          (Event.ShouldRun context.WorkingDir nodeModulesLayer.Metadata sr.1.1 sr.1.2.1 sr.1.2.2)
        match sr.1.2.2 with
        | some err => s.fail err
        | none =>
          if sr.1.1 then
            Build.execute process clock sys context nodeModulesLayer nodeCacheLayer sr.1.2.1 s
          else
            Build.reuse sys context nodeModulesLayer nodeCacheLayer s

/-! ## A concrete world for evaluating `Build`

The world is a script: what each collaborator answers. -/

/-- The answers of the collaborators in the scripted world. -/
structure Script where
  getModules : Option GoError
  getCache : Option GoError
  modulesMetadata : MetadataMap
  resolve : Option GoError
  shouldRun : Bool × String × Option GoError
  reset : Option GoError
  run : Option GoError
  removeAll : Option GoError
  symlink : Option GoError
  stat : Option GoError
  isEmptyDir : Bool
  clock : Time
deriving DecidableEq, Repr

/-- A layer as `Layers.Get` hands it out in the scripted world. -/
def Script.layer (name : String) (md : MetadataMap) (launch cache : Bool) : Layer :=
  { Path := "/layers/" ++ name, Name := name, Build := false, Launch := launch, Cache := cache,
    SharedEnv := ⟨[]⟩, BuildEnv := ⟨[]⟩, LaunchEnv := ⟨[]⟩, Metadata := md }

/-- The build process of the scripted world. -/
def Script.process : BuildProcess Script :=
  { ShouldRun := fun _ _ w => (w.shouldRun, w)
    Run := fun _ _ _ w => (w.run, w) }

/-- The build manager of the scripted world. -/
def Script.buildManager : BuildManager Script :=
  { Resolve := fun _ _ w => ((Script.process, w.resolve), w) }

/-- The clock of the scripted world: every reading advances it by one. -/
def Script.theClock : Clock Script :=
  { Now := fun w => (w.clock, { w with clock := w.clock + 1 }) }

/-- The system of the scripted world; `Reset` empties environments and metadata. -/
def Script.system : System Script :=
  { Reset := fun l w =>
      (({ l with SharedEnv := ⟨[]⟩, BuildEnv := ⟨[]⟩, LaunchEnv := ⟨[]⟩, Metadata := [] },
        w.reset), w)
    RemoveAll := fun _ w => (w.removeAll, w)
    Symlink := fun _ _ w => (w.symlink, w)
    Stat := fun _ w => (w.stat, w)
    IsEmptyDir := fun _ w => (w.isEmptyDir, w)
    FormatRFC3339Nano := fun t => "T" ++ toString t
    PathListSeparator := ":" }

/-- The build context of the scripted world. -/
def Script.context : BuildContext Script :=
  { BuildpackInfo := ⟨"paketo-buildpacks/npm", "NPM Buildpack", "1.2.3"⟩
    CNBPath := "/cnb"
    Layers :=
      { Path := "/layers"
        Get := fun name tys w =>
          if name = LayerNameNodeModules then
            ((Script.layer name w.modulesMetadata (decide (LayerType.LaunchLayer ∈ tys))
              (decide (LayerType.CacheLayer ∈ tys)), w.getModules), w)
          else
            ((Script.layer name [] (decide (LayerType.LaunchLayer ∈ tys))
              (decide (LayerType.CacheLayer ∈ tys)), w.getCache), w) }
    Plan := ⟨[⟨"node_modules", "", []⟩]⟩
    Stack := "some-stack"
    WorkingDir := "/workspace" }

/-- `Build` in the scripted world. -/
def Script.build (w : Script) : Outcome Script :=
  Build Script.buildManager Script.theClock Script.system Script.context w

/-- The script in which every call succeeds, the process asks to run, and the
cache layer directory exists and is not empty. -/
def Script.allGood : Script :=
  { getModules := none, getCache := none, modulesMetadata := [("cache_sha", "old")],
    resolve := none, shouldRun := (true, "abc", none), reset := none, run := none,
    removeAll := none, symlink := none, stat := none, isEmptyDir := false, clock := 100 }

/-- The error used where a script makes a call fail. -/
def Script.denied : GoError := ⟨"permission denied", false⟩

/-- The script in which `Layer.Reset` fails after the process asked to run. -/
def Script.resetFails : Script := { Script.allGood with reset := some Script.denied }

/-- The script in which `Run` fails. -/
def Script.runFails : Script := { Script.allGood with run := some Script.denied }

/-- The script in which the process does not ask to run. -/
def Script.cached : Script := { Script.allGood with shouldRun := (false, "abc", none) }

/-- The script in which the final `os.Stat` of the cache layer path is denied. -/
def Script.statDenied : Script := { Script.allGood with stat := some Script.denied }

/-! ## A world with a cache layer path of known state -/

/-- What a path of the filesystem holds. -/
inductive PathState where
  | absent
  | file
  | dir (entries : List String)
deriving DecidableEq, Repr

/-- Whether the path exists and is a non-empty directory. -/
def PathState.isNonEmptyDir : PathState → Bool
  | .dir (_ :: _) => true
  | _ => false

/-- A world in which the process does not ask to run and every call before the
final checks succeeds.  The cache layer path `/layers/npm-cache` holds
`cachePath`, and `statPermitted` says whether the path may be reached (search
permission on the directories above it). -/
structure Disk where
  cachePath : PathState
  statPermitted : Bool
  clock : Time
deriving DecidableEq, Repr

/-- `os.Stat` in this world: denied when the path may not be reached, a
does-not-exist error when nothing is there, no error otherwise. -/
def Disk.stat (w : Disk) (path : String) : Option GoError :=
  if w.statPermitted then
    if path = "/layers/npm-cache" then
      match w.cachePath with
      | PathState.absent => some ⟨"no such file or directory", true⟩
      | _ => none
    else some ⟨"no such file or directory", true⟩
  else some Script.denied

/-- `fs.IsEmptyDir` in this world: true for a directory that can be listed and
has no entries; a path that cannot be listed (absent, not a directory, not
reachable) answers false. -/
def Disk.isEmptyDir (w : Disk) (path : String) : Bool :=
  if w.statPermitted && path = "/layers/npm-cache" then
    match w.cachePath with
    | PathState.dir [] => true
    | _ => false
  else false

/-- The build manager of this world: the process never asks to run. -/
def Disk.buildManager : BuildManager Disk :=
  { Resolve := fun _ _ w =>
      (({ ShouldRun := fun _ _ w => ((false, "abc", none), w)
          Run := fun _ _ _ w => (none, w) }, none), w) }

/-- The clock of this world. -/
def Disk.theClock : Clock Disk :=
  { Now := fun w => (w.clock, { w with clock := w.clock + 1 }) }

/-- The system of this world. -/
def Disk.system : System Disk :=
  { Reset := fun l w => ((l, none), w)
    RemoveAll := fun _ w => (none, w)
    Symlink := fun _ _ w => (none, w)
    Stat := fun path w => (w.stat path, w)
    IsEmptyDir := fun path w => (w.isEmptyDir path, w)
    FormatRFC3339Nano := fun t => "T" ++ toString t
    PathListSeparator := ":" }

/-- The build context of this world. -/
def Disk.context : BuildContext Disk :=
  { BuildpackInfo := ⟨"paketo-buildpacks/npm", "NPM Buildpack", "1.2.3"⟩
    CNBPath := "/cnb"
    Layers :=
      { Path := "/layers"
        Get := fun name tys w =>
          ((Script.layer name [] (decide (LayerType.LaunchLayer ∈ tys))
            (decide (LayerType.CacheLayer ∈ tys)), none), w) }
    Plan := ⟨[⟨"node_modules", "", []⟩]⟩
    Stack := "some-stack"
    WorkingDir := "/workspace" }

/-- `Build` in this world. -/
def Disk.build (w : Disk) : Outcome Disk :=
  Build Disk.buildManager Disk.theClock Disk.system Disk.context w

/-- The cache layer path is a directory holding one entry, and it may not be
reached. -/
def Disk.deniedDir : Disk := ⟨PathState.dir ["some-cache-file"], false, 100⟩

/-- The cache layer path is a regular file. -/
def Disk.regularFile : Disk := ⟨PathState.file, true, 100⟩

/-! ## Strategy selection (`BuildProcessResolver.Resolve`)

The resolver's implementation file is not among the sources; only its test
file `build_process_resolver_test.go` is.  The definitions of this section
follow the words of §3, §4.1 and §8 of the specification. -/

/-- Modelled from the spec: the three build processes a resolution can select
(§3 "Selected Strategy"); the constructors `NewInstallBuildProcess`,
`NewRebuildBuildProcess` and `NewCIBuildProcess` are not among the sources.
Two processes are equal exactly when they are the same variant. -/
inductive Strategy where
  | Install
  | Rebuild
  | CI
deriving DecidableEq, Repr

/-- Modelled from the spec: what `NewInstallBuildProcess` constructs. -/
def NewInstallBuildProcess : Strategy := Strategy.Install

/-- Modelled from the spec: what `NewRebuildBuildProcess` constructs. -/
def NewRebuildBuildProcess : Strategy := Strategy.Rebuild

/-- Modelled from the spec: what `NewCIBuildProcess` constructs. -/
def NewCIBuildProcess : Strategy := Strategy.CI

/-- An entry of an `npm-cache` directory: its name, its content, and whether it
may be read (and so moved). -/
structure CacheEntry where
  name : String
  content : String
  readable : Bool
deriving DecidableEq, Repr

/-- Modelled from the spec: the working directory as `Resolve` finds it (§3
"Working Directory State").  `readable` is the read permission of the
directory itself; `packageLock` and `nodeModules` say whether
`package-lock.json` and `node_modules` exist in it; `npmCache` holds the
entries of its `npm-cache` directory, `none` when there is no such
directory. -/
structure WorkingDir where
  readable : Bool
  packageLock : Bool
  nodeModules : Bool
  npmCache : Option (List CacheEntry)
deriving DecidableEq, Repr

/-- Modelled from the spec: the state `Resolve(workingDir, cacheDir)` observes
and changes: the working directory, the entries of `npm-cache` below the
cache directory, and whether the cache directory may be written. -/
structure ResolveState where
  workingDir : WorkingDir
  layerCache : List CacheEntry
  cacheDirWritable : Bool
deriving DecidableEq, Repr

/-- Modelled from the spec: the selection algorithm of §4.1, whose
implementation is not among the sources: priority order, first match wins.
A lock file gives CI; else an existing install-output directory gives
Rebuild; else Install. -/
def selectBuildProcess (packageLock nodeModules : Bool) : Strategy :=
  if packageLock then NewCIBuildProcess
  else if nodeModules then NewRebuildBuildProcess
  else NewInstallBuildProcess

/-- Modelled from the spec: the relocation of §4.1, moving the entries of the
working directory's `npm-cache` below the cache directory, an entry replacing
one of the same name already there. -/
def relocate (entries layerCache : List CacheEntry) : List CacheEntry :=
  layerCache.filter (fun old => !entries.any (fun en => en.name == old.name)) ++ entries

/-- The error of a denied filesystem operation. -/
def permissionDenied : GoError := ⟨"permission denied", false⟩

/-- Modelled from the spec: `BuildProcessResolver.Resolve(workingDir, cacheDir)`
(§4.1), whose implementation is not among the sources.  A stat, read or move
that fails is a resolution error and no process is returned (the state is then
left as it was found): this is the case in an unreadable working directory,
and when an existing `npm-cache` has an entry that cannot be read or the cache
directory cannot be written.  Otherwise an existing `npm-cache` is moved below
the cache directory, an absent one is no-op, and in either branch the
process is selected by the priority order. -/
def Resolve (fs : ResolveState) : (Option Strategy × Option GoError) × ResolveState :=
  if fs.workingDir.readable then
    match fs.workingDir.npmCache with
    | some entries =>
      if fs.cacheDirWritable && entries.all (fun en => en.readable) then
        ((some (selectBuildProcess fs.workingDir.packageLock fs.workingDir.nodeModules), none),
          { fs with
            workingDir := { fs.workingDir with npmCache := none }
            layerCache := relocate entries fs.layerCache })
      else ((none, some permissionDenied), fs)
    | none =>
      ((some (selectBuildProcess fs.workingDir.packageLock fs.workingDir.nodeModules), none), fs)
  else ((none, some permissionDenied), fs)

/-! ## Detection (`Detect`)

`detect.go` is not among the sources; its test file `detect_test.go` is. -/

/-- `npm.BuildPlanMetadata` as the tests of `Detect` construct it. -/
structure BuildPlanMetadata where
  VersionSource : String
  Build : Bool
  Launch : Bool
deriving DecidableEq, Repr

/-- `packit.BuildPlanRequirement`; no metadata is `none`. -/
structure BuildPlanRequirement where
  Name : String
  Version : String
  Metadata : Option BuildPlanMetadata
deriving DecidableEq, Repr

/-- `packit.BuildPlanProvision`. -/
structure BuildPlanProvision where
  Name : String
deriving DecidableEq, Repr

/-- `packit.BuildPlan`. -/
structure BuildPlan where
  Provides : List BuildPlanProvision
  Requires : List BuildPlanRequirement
deriving DecidableEq, Repr

/-- `packit.DetectResult`. -/
structure DetectResult where
  Plan : BuildPlan
deriving DecidableEq, Repr

/-- The zero value `packit.DetectResult{}`. -/
def DetectResult.empty : DetectResult := ⟨⟨[], []⟩⟩

/-- `packit.DetectContext`. -/
structure DetectContext where
  WorkingDir : String
deriving DecidableEq, Repr

/-- The `VersionParser` interface handed to `Detect`. -/
structure VersionParser where
  ParseVersion : String → String × Option GoError

/-- The sentinel `packit.Fail`, the error that signals a failed detection. -/
def packitFail : GoError := ⟨"failed", false⟩

/-- Modelled from the spec: the constant `PlanDependencyNodeModules`. -/
def PlanDependencyNodeModules : String := "node_modules"

/-- Modelled from the spec: the constant `PlanDependencyNode`. -/
def PlanDependencyNode : String := "node"

/-- What one `Detect` invocation returns, with the paths it handed to the parser. -/
structure DetectOutcome where
  result : DetectResult
  err : Option GoError
  parsed : List String
deriving DecidableEq, Repr

/-- Modelled from the spec: `Detect(parser)` applied to a detect context (§6,
§7 "Detection-phase manifest errors", and the tests of `detect_test.go`);
`detect.go` is not among the sources.  The parser is asked for the version in
`package.json` of the working directory.  A parser error that satisfies
`os.IsNotExist` fails detection with `packit.Fail`, any other parser error is
returned as it is, and otherwise the plan provides `node_modules` and
requires `node_modules` and `node`. -/
def Detect (parser : VersionParser) (context : DetectContext) : DetectOutcome :=
  let path := filepathJoin [context.WorkingDir, "package.json"]
  let pv := parser.ParseVersion path
  match pv.2 with
  | some err =>
    if err.notExist then ⟨DetectResult.empty, some packitFail, [path]⟩
    else ⟨DetectResult.empty, some err, [path]⟩
  | none =>
    let version := pv.1
    let nodeDependency : BuildPlanRequirement :=
      if version ≠ "" then
        { Name := PlanDependencyNode, Version := version,
          Metadata := some { VersionSource := "package.json", Build := true, Launch := true } }
      else
        { Name := PlanDependencyNode, Version := "",
          Metadata := some { VersionSource := "", Build := true, Launch := true } }
    ⟨{ Plan :=
        { Provides := [{ Name := PlanDependencyNodeModules }],
          Requires := [{ Name := PlanDependencyNodeModules, Version := "", Metadata := none },
            nodeDependency] } },
      none, [path]⟩

/-! ## The possible courses of one `Build` invocation -/

/-- The `web` process declared by every successful build. -/
def webProcess : Process := { ProcessType := "web", Command := "npm start" }

/-- The three ways lines 98-115 can go: the recorded calls and the result. -/
inductive FinishShape (plan : BuildpackPlan) (ml cl : Layer) : List Event → BuildResult → Prop
  | statFailed (e : GoError) :
      FinishShape plan ml cl [Event.Stat cl.Path (some e)] ⟨plan, [ml], [webProcess]⟩
  | emptyDir :
      FinishShape plan ml cl [Event.Stat cl.Path none, Event.IsEmptyDir cl.Path true]
        ⟨plan, [ml], [webProcess]⟩
  | kept :
      FinishShape plan ml cl [Event.Stat cl.Path none, Event.IsEmptyDir cl.Path false]
        ⟨plan, [ml, cl], [webProcess]⟩

/-- The four calls that open every build which reaches the run decision. -/
def openingCalls (wd : String) (ml cl : Layer) (run : Bool) (sha : String) : List Event :=
  [ Event.LayersGet LayerNameNodeModules [LayerType.LaunchLayer] ml none,
    Event.LayersGet LayerNameCache [LayerType.CacheLayer] cl none,
    Event.Resolve wd cl.Path none,
    Event.ShouldRun wd ml.Metadata run sha none ]

/-- The ten courses a build can take: recorded calls, result, returned error. -/
inductive BuildShape {σ : Type} (sys : System σ) (context : BuildContext σ) :
    List Event → BuildResult → Option GoError → Prop
  | getModulesFailed (l : Layer) (e : GoError) :
      BuildShape sys context
        [Event.LayersGet LayerNameNodeModules [LayerType.LaunchLayer] l (some e)]
        BuildResult.empty (some e)
  | getCacheFailed (ml l : Layer) (e : GoError) :
      BuildShape sys context
        [ Event.LayersGet LayerNameNodeModules [LayerType.LaunchLayer] ml none,
          Event.LayersGet LayerNameCache [LayerType.CacheLayer] l (some e) ]
        BuildResult.empty (some e)
  | resolveFailed (ml cl : Layer) (e : GoError) :
      BuildShape sys context
        [ Event.LayersGet LayerNameNodeModules [LayerType.LaunchLayer] ml none,
          Event.LayersGet LayerNameCache [LayerType.CacheLayer] cl none,
          Event.Resolve context.WorkingDir cl.Path (some e) ]
        BuildResult.empty (some e)
  | shouldRunFailed (ml cl : Layer) (run : Bool) (sha : String) (e : GoError) :
      BuildShape sys context
        [ Event.LayersGet LayerNameNodeModules [LayerType.LaunchLayer] ml none,
          Event.LayersGet LayerNameCache [LayerType.CacheLayer] cl none,
          Event.Resolve context.WorkingDir cl.Path none,
          Event.ShouldRun context.WorkingDir ml.Metadata run sha (some e) ]
        BuildResult.empty (some e)
  | resetFailed (ml cl : Layer) (sha : String) (t0 : Time) (ml1 : Layer) (e : GoError) :
      BuildShape sys context
        (openingCalls context.WorkingDir ml cl true sha ++
          [Event.Now t0, Event.Reset ml ml1 (some e)])
        BuildResult.empty (some e)
  | runFailed (ml cl : Layer) (sha : String) (t0 : Time) (ml1 : Layer) (e : GoError) :
      BuildShape sys context
        (openingCalls context.WorkingDir ml cl true sha ++
          [ Event.Now t0, Event.Reset ml ml1 none,
            Event.Run ml1.Path cl.Path context.WorkingDir (some e) ])
        BuildResult.empty (some e)
  | executed (ml cl : Layer) (sha : String) (t0 : Time) (ml1 : Layer) (t1 : Time)
      (fin : List Event) (r : BuildResult)
      (hfin : FinishShape context.Plan (Build.record sys ml1 t1 sha) cl fin r) :
      BuildShape sys context
        (openingCalls context.WorkingDir ml cl true sha ++
          [ Event.Now t0, Event.Reset ml ml1 none,
            Event.Run ml1.Path cl.Path context.WorkingDir none, Event.Now t1 ] ++ fin)
        r none
  | removeAllFailed (ml cl : Layer) (sha : String) (e : GoError) :
      BuildShape sys context
        (openingCalls context.WorkingDir ml cl false sha ++
          [Event.RemoveAll (filepathJoin [context.WorkingDir, "node_modules"]) (some e)])
        BuildResult.empty (some e)
  | symlinkFailed (ml cl : Layer) (sha : String) (e : GoError) :
      BuildShape sys context
        (openingCalls context.WorkingDir ml cl false sha ++
          [ Event.RemoveAll (filepathJoin [context.WorkingDir, "node_modules"]) none,
            Event.Symlink (filepathJoin [ml.Path, "node_modules"])
              (filepathJoin [context.WorkingDir, "node_modules"]) (some e) ])
        BuildResult.empty (some e)
  | reused (ml cl : Layer) (sha : String) (fin : List Event) (r : BuildResult)
      (hfin : FinishShape context.Plan ml cl fin r) :
      BuildShape sys context
        (openingCalls context.WorkingDir ml cl false sha ++
          [ Event.RemoveAll (filepathJoin [context.WorkingDir, "node_modules"]) none,
            Event.Symlink (filepathJoin [ml.Path, "node_modules"])
              (filepathJoin [context.WorkingDir, "node_modules"]) none ] ++ fin)
        r none

/-! ## Lemmas on the course of `Build` -/

/-- Lines 98-115 append one of the three finishing courses to the calls so far
and return without error. -/
theorem Build.finish_shape {σ : Type} (sys : System σ) (context : BuildContext σ)
    (ml cl : Layer) (s : Exec σ) :
    ∃ fin r, FinishShape context.Plan ml cl fin r ∧
      (Build.finish sys context ml cl s).calls = s.calls ++ fin ∧
      (Build.finish sys context ml cl s).result = r ∧
      (Build.finish sys context ml cl s).err = none := by
  simp only [Build.finish, Exec.call, Exec.done]
  rcases hst : sys.Stat cl.Path s.world with ⟨st, w1⟩
  cases st with
  | some e => exact ⟨_, _, FinishShape.statFailed e, by simp [webProcess]⟩
  | none =>
    rcases hem : sys.IsEmptyDir cl.Path w1 with ⟨em, w2⟩
    cases em with
    | true => exact ⟨_, _, FinishShape.emptyDir, by simp [webProcess]⟩
    | false => exact ⟨_, _, FinishShape.kept, by simp [webProcess]⟩

/-- Every build takes one of the ten courses. -/
theorem Build_shape {σ : Type} (buildManager : BuildManager σ) (clock : Clock σ)
    (sys : System σ) (context : BuildContext σ) (w : σ) :
    BuildShape sys context (Build buildManager clock sys context w).calls
      (Build buildManager clock sys context w).result
      (Build buildManager clock sys context w).err := by
  simp only [Build, Exec.call, Exec.say, Exec.fail]
  rcases hg1 : context.Layers.Get LayerNameNodeModules [LayerType.LaunchLayer] w
    with ⟨⟨ml, e1⟩, w1⟩
  cases e1 with
  | some e => exact BuildShape.getModulesFailed ml e
  | none =>
  simp only []
  rcases hg2 : context.Layers.Get LayerNameCache [LayerType.CacheLayer] w1 with ⟨⟨cl, e2⟩, w2⟩
  cases e2 with
  | some e => exact BuildShape.getCacheFailed ml cl e
  | none =>
  simp only []
  rcases hrv : buildManager.Resolve context.WorkingDir cl.Path w2 with ⟨⟨process, e3⟩, w3⟩
  cases e3 with
  | some e => exact BuildShape.resolveFailed ml cl e
  | none =>
  simp only []
  rcases hsr : process.ShouldRun context.WorkingDir ml.Metadata w3 with ⟨⟨run, sha, e4⟩, w4⟩
  cases e4 with
  | some e => exact BuildShape.shouldRunFailed ml cl run sha e
  | none =>
  simp only []
  cases run with
  | true =>
    simp only [Build.execute, Exec.call, Exec.say, Exec.fail, if_true]
    rcases hnow : clock.Now w4 with ⟨t0, w5⟩
    simp only []
    rcases hrs : sys.Reset ml w5 with ⟨⟨ml1, e5⟩, w6⟩
    cases e5 with
    | some e => exact BuildShape.resetFailed ml cl sha t0 ml1 e
    | none =>
    simp only []
    rcases hrn : process.Run ml1.Path cl.Path context.WorkingDir w6 with ⟨e6, w7⟩
    cases e6 with
    | some e => exact BuildShape.runFailed ml cl sha t0 ml1 e
    | none =>
    simp only []
    rcases hnow1 : clock.Now w7 with ⟨t1, w8⟩
    simp only []
    obtain ⟨fin, r, hfin, hc, hr, he⟩ := Build.finish_shape sys context
      (Build.record sys ml1 t1 sha) cl
      ⟨w8, [ Event.LayersGet LayerNameNodeModules [LayerType.LaunchLayer] ml none,
          Event.LayersGet LayerNameCache [LayerType.CacheLayer] cl none,
          Event.Resolve context.WorkingDir cl.Path none,
          Event.ShouldRun context.WorkingDir ml.Metadata true sha none,
          Event.Now t0, Event.Reset ml ml1 none,
          Event.Run ml1.Path cl.Path context.WorkingDir none, Event.Now t1 ], _⟩
    simp only [List.nil_append, List.cons_append, List.singleton_append] at hc ⊢
    rw [hc, hr, he]
    exact BuildShape.executed ml cl sha t0 ml1 t1 fin r hfin
  | false =>
    simp only [Build.reuse, Exec.call, Exec.say, Exec.fail, Bool.false_eq_true, if_false]
    rcases hrm : sys.RemoveAll (filepathJoin [context.WorkingDir, "node_modules"]) w4
      with ⟨e5, w5⟩
    cases e5 with
    | some e => exact BuildShape.removeAllFailed ml cl sha e
    | none =>
    simp only []
    rcases hln : sys.Symlink (filepathJoin [ml.Path, "node_modules"])
      (filepathJoin [context.WorkingDir, "node_modules"]) w5 with ⟨e6, w6⟩
    cases e6 with
    | some e => exact BuildShape.symlinkFailed ml cl sha e
    | none =>
    simp only []
    obtain ⟨fin, r, hfin, hc, hr, he⟩ := Build.finish_shape sys context ml cl
      ⟨w6, [ Event.LayersGet LayerNameNodeModules [LayerType.LaunchLayer] ml none,
          Event.LayersGet LayerNameCache [LayerType.CacheLayer] cl none,
          Event.Resolve context.WorkingDir cl.Path none,
          Event.ShouldRun context.WorkingDir ml.Metadata false sha none,
          Event.RemoveAll (filepathJoin [context.WorkingDir, "node_modules"]) none,
          Event.Symlink (filepathJoin [ml.Path, "node_modules"])
            (filepathJoin [context.WorkingDir, "node_modules"]) none ], _⟩
    simp only [List.nil_append, List.cons_append, List.singleton_append] at hc ⊢
    rw [hc, hr, he]
    exact BuildShape.reused ml cl sha fin r hfin

/-- In a list whose elements all satisfy `P` except possibly the last, an
element that does not satisfy `P` has nothing after it. -/
theorem nothing_after_exception {α : Type} (P : α → Prop) {l pre post : List α} {ev : α}
    (h : l = pre ++ ev :: post) (hall : ∀ x ∈ l.dropLast, P x) (hev : ¬ P ev) :
    post = [] := by
  by_contra hne
  apply hev
  apply hall
  rw [h, List.dropLast_append_cons, List.dropLast_cons_of_ne_nil hne]
  simp

/-- Every call of a build except possibly the last one answered without error. -/
theorem Build_calls_before_last {σ : Type} (buildManager : BuildManager σ) (clock : Clock σ)
    (sys : System σ) (context : BuildContext σ) (w : σ) :
    ∀ x ∈ (Build buildManager clock sys context w).calls.dropLast, x.err = none := by
  have h := Build_shape buildManager clock sys context w
  generalize (Build buildManager clock sys context w).calls = calls at h ⊢
  generalize (Build buildManager clock sys context w).result = r at h
  generalize (Build buildManager clock sys context w).err = oe at h
  cases h with
  | executed ml cl sha t0 ml1 t1 fin r hfin => cases hfin <;> simp [openingCalls, Event.err]
  | reused ml cl sha fin r hfin => cases hfin <;> simp [openingCalls, Event.err]
  | _ => simp [openingCalls, Event.err]

/-- When the last call of a build is a failed call other than the `os.Stat`
probe, the build returns that error with the empty result, and `Run` was not
called before it. -/
theorem Build_last_failed {σ : Type} (buildManager : BuildManager σ) (clock : Clock σ)
    (sys : System σ) (context : BuildContext σ) (w : σ) (ev : Event) (e : GoError)
    (hlast : (Build buildManager clock sys context w).calls.getLast? = some ev)
    (hfail : ev.err = some e) (hstep : ev.isStat = false) :
    (Build buildManager clock sys context w).err = some e ∧
    (Build buildManager clock sys context w).result = BuildResult.empty ∧
    ∀ x ∈ (Build buildManager clock sys context w).calls.dropLast, x.isRun = false := by
  have h := Build_shape buildManager clock sys context w
  generalize (Build buildManager clock sys context w).calls = calls at h hlast ⊢
  generalize (Build buildManager clock sys context w).result = r at h ⊢
  generalize (Build buildManager clock sys context w).err = oe at h ⊢
  cases h with
  | executed ml cl sha t0 ml1 t1 fin r hfin =>
    cases hfin <;> simp [openingCalls] at hlast <;> subst hlast <;>
      simp [Event.err, Event.isStat] at hfail hstep
  | reused ml cl sha fin r hfin =>
    cases hfin <;> simp [openingCalls] at hlast <;> subst hlast <;>
      simp [Event.err, Event.isStat] at hfail hstep
  | _ =>
    simp [openingCalls] at hlast
    subst hlast
    simp [Event.err] at hfail
    subst hfail
    simp [openingCalls, Event.isRun]

/-- A failed call other than the `os.Stat` probe is the last call of the build,
its error is what the build returns, with the empty result, and the calls
before it succeeded and do not include `Run`. -/
theorem Build_failed_call {σ : Type} (buildManager : BuildManager σ) (clock : Clock σ)
    (sys : System σ) (context : BuildContext σ) (w : σ)
    (pre post : List Event) (ev : Event) (e : GoError)
    (hcalls : (Build buildManager clock sys context w).calls = pre ++ ev :: post)
    (hfail : ev.err = some e) (hstep : ev.isStat = false) :
    post = [] ∧
    (Build buildManager clock sys context w).err = some e ∧
    (Build buildManager clock sys context w).result = BuildResult.empty ∧
    ∀ x ∈ pre, x.err = none ∧ x.isRun = false := by
  have hpost : post = [] :=
    nothing_after_exception (fun x => x.err = none) hcalls
      (Build_calls_before_last buildManager clock sys context w) (by simp [hfail])
  subst hpost
  have hlast : (Build buildManager clock sys context w).calls.getLast? = some ev := by
    rw [hcalls, List.getLast?_concat]
  have hdrop : (Build buildManager clock sys context w).calls.dropLast = pre := by
    rw [hcalls, List.dropLast_concat]
  obtain ⟨h1, h2, h3⟩ :=
    Build_last_failed buildManager clock sys context w ev e hlast hfail hstep
  refine ⟨rfl, h1, h2, fun x hx => ⟨?_, ?_⟩⟩
  · exact Build_calls_before_last buildManager clock sys context w x (hdrop ▸ hx)
  · exact h3 x (hdrop ▸ hx)

/-! ## Strategy selection -/

/-- C1, as stated, fails.  In a readable working directory without
`package-lock.json` and `node_modules` whose `npm-cache` holds an entry that
cannot be read (the directory of `build_process_resolver_test.go` lines
286-302), `Resolve` does not succeed: it returns a permission error and no
process. -/
theorem Resolve_fails_on_unreadable_cache_entry :
    (Resolve ⟨⟨true, false, false, some [⟨"some-cache-dir", "", false⟩]⟩, [], true⟩).1
      = (none, some permissionDenied) := by
  decide

/-- C1, amended.  In a readable working directory whose `npm-cache`, when it
is present, can be relocated (every entry can be read and the cache directory
can be written), `Resolve` succeeds for every combination of the three
signals.  For every combination other than lock file and `node_modules`
present with `npm-cache` absent, the selection is the strict priority order:
CI exactly when the lock file is present, Rebuild exactly when the lock file
is absent and `node_modules` is present, Install exactly when both are
absent; so among these combinations `npm-cache` plays no part.  Nothing is
said here about the combination left out. -/
theorem Resolve_selection (packageLock nodeModules : Bool)
    (npmCache : Option (List CacheEntry)) (layerCache : List CacheEntry)
    (cacheDirWritable : Bool)
    (hmove : ∀ entries, npmCache = some entries →
      cacheDirWritable = true ∧ ∀ en ∈ entries, en.readable = true) :
    ∃ s, (Resolve ⟨⟨true, packageLock, nodeModules, npmCache⟩, layerCache,
          cacheDirWritable⟩).1 = (some s, none) ∧
      (¬ (packageLock = true ∧ nodeModules = true ∧ npmCache = none) →
        (s = NewCIBuildProcess ↔ packageLock = true) ∧
        (s = NewRebuildBuildProcess ↔ packageLock = false ∧ nodeModules = true) ∧
        (s = NewInstallBuildProcess ↔ packageLock = false ∧ nodeModules = false)) := by
  refine ⟨selectBuildProcess packageLock nodeModules, ?_, ?_⟩
  · cases npmCache with
    | none => simp [Resolve]
    | some entries =>
      obtain ⟨hw, hread⟩ := hmove entries rfl
      have hall : entries.all (fun en => en.readable) = true := by
        simpa [List.all_eq_true] using hread
      simp [Resolve, hw, hall]
  · intro _
    cases packageLock <;> cases nodeModules <;>
      simp [selectBuildProcess, NewInstallBuildProcess, NewRebuildBuildProcess,
        NewCIBuildProcess]

/-- C1, amended, at work: the directory of the test at lines 67-84 (only
`npm-cache`, with one readable file) resolves to Install. -/
theorem Resolve_selection_witness :
    (∀ entries, some [(⟨"some-cache-file", "some-content", true⟩ : CacheEntry)] = some entries →
      true = true ∧ ∀ en ∈ entries, en.readable = true) ∧
    ∃ s, (Resolve ⟨⟨true, false, false, some [⟨"some-cache-file", "some-content", true⟩]⟩, [],
          true⟩).1 = (some s, none) ∧
      (¬ (false = true ∧ false = true ∧
          some [(⟨"some-cache-file", "some-content", true⟩ : CacheEntry)] = none) →
        (s = NewCIBuildProcess ↔ false = true) ∧
        (s = NewRebuildBuildProcess ↔ false = false ∧ false = true) ∧
        (s = NewInstallBuildProcess ↔ false = false ∧ false = false)) :=
  have hmove : ∀ entries,
      some [(⟨"some-cache-file", "some-content", true⟩ : CacheEntry)] = some entries →
      true = true ∧ ∀ en ∈ entries, en.readable = true := by
    intro entries h
    cases h
    simp
  ⟨hmove, Resolve_selection false false (some [⟨"some-cache-file", "some-content", true⟩]) []
    true hmove⟩

/-- C2, on the resolver as the specification words it.  In a readable working
directory that holds both `node_modules` and `package-lock.json` but no
`npm-cache`, `Resolve` returns without error, and the process it returns is
`NewCIBuildProcess`, which is not `NewRebuildBuildProcess`. -/
theorem Resolve_lock_and_modules_selects_ci (layerCache : List CacheEntry)
    (cacheDirWritable : Bool) :
    (Resolve ⟨⟨true, true, true, none⟩, layerCache, cacheDirWritable⟩).1
      = (some NewCIBuildProcess, none) ∧
    NewCIBuildProcess ≠ NewRebuildBuildProcess := by
  constructor
  · simp [Resolve, selectBuildProcess]
  · decide

/-! ## Detection -/

/-- C9.  `Detect` hands `package.json` of the working directory to the version
parser, once.  When the parser answers with an error that is a
file-does-not-exist error, `Detect` returns `packit.Fail`; when it answers
with any other error, `Detect` returns that error unchanged; and `Detect`
returns no error exactly when the parser answers with none. -/
theorem Detect_parser_errors (parser : VersionParser) (context : DetectContext) :
    (Detect parser context).parsed = [filepathJoin [context.WorkingDir, "package.json"]] ∧
    (∀ e, (parser.ParseVersion (filepathJoin [context.WorkingDir, "package.json"])).2 = some e →
      e.notExist = true → (Detect parser context).err = some packitFail) ∧
    (∀ e, (parser.ParseVersion (filepathJoin [context.WorkingDir, "package.json"])).2 = some e →
      e.notExist = false → (Detect parser context).err = some e) ∧
    ((Detect parser context).err = none ↔
      (parser.ParseVersion (filepathJoin [context.WorkingDir, "package.json"])).2 = none) := by
  simp only [Detect]
  cases h : (parser.ParseVersion (filepathJoin [context.WorkingDir, "package.json"])).2 with
  | none => simp
  | some err => cases hne : err.notExist <;> simp [hne]

/-! ## Error handling of `Build` -/

/-- C6.  `Build` is fail-fast with verbatim propagation.  Whenever one of the
steps `Layers.Get` (modules or cache), `Resolve`, `ShouldRun`, `Reset`, `Run`,
`RemoveAll` or `Symlink` (a recorded call that carries an error, other than
the `os.Stat` probe) answers with an error `e`: no further call is made after
it, `Build` returns exactly `e` together with the empty `BuildResult`, every
call made before it had succeeded, and `Run` is not among the calls made
before it (so a `Resolve` or `ShouldRun` error means `Run` is never invoked,
and a `Run` error returns no layer, hence no new metadata). -/
theorem Build_fail_fast {σ : Type} (buildManager : BuildManager σ) (clock : Clock σ)
    (sys : System σ) (context : BuildContext σ) (w : σ)
    (pre post : List Event) (ev : Event) (e : GoError)
    (hcalls : (Build buildManager clock sys context w).calls = pre ++ ev :: post)
    (hfail : ev.err = some e) (hstep : ev.isStat = false) :
    post = [] ∧
    (Build buildManager clock sys context w).err = some e ∧
    (Build buildManager clock sys context w).result = BuildResult.empty ∧
    ∀ x ∈ pre, x.err = none ∧ x.isRun = false :=
  Build_failed_call buildManager clock sys context w pre post ev e hcalls hfail hstep

/-- C6 at work: in the scripted world where `Run` is denied, the failed `Run`
is the seventh and last call, and `Build` returns its error with the empty
result. -/
theorem Build_fail_fast_witness :
    (Script.build Script.runFails).calls =
      (Script.build Script.runFails).calls.dropLast ++
        Event.Run "/layers/modules" "/layers/npm-cache" "/workspace" (some Script.denied) :: [] ∧
    (Script.build Script.runFails).calls.length = 7 ∧
    (Script.build Script.runFails).err = some Script.denied ∧
    (Script.build Script.runFails).result = BuildResult.empty :=
  have h := Build_fail_fast Script.buildManager Script.theClock Script.system Script.context
    Script.runFails (Script.build Script.runFails).calls.dropLast []
    (Event.Run "/layers/modules" "/layers/npm-cache" "/workspace" (some Script.denied))
    Script.denied (by decide) (by decide) (by decide)
  ⟨by decide, by decide, h.2.1, h.2.2.1⟩

/-- C10, as stated, fails.  In the scripted world where the final `os.Stat` of
the cache layer path is denied and every other call succeeds, the failed
`os.Stat` is among the calls of the build, and yet `Build` returns no error:
it returns a result holding the modules layer alone. -/
theorem Build_swallows_stat_error :
    Event.Stat "/layers/npm-cache" (some Script.denied) ∈
      (Script.build Script.statDenied).calls ∧
    (Script.build Script.statDenied).err = none ∧
    (Script.build Script.statDenied).result.Layers.length = 1 := by
  decide

/-- C10, amended.  An error from `Layers.Get`, `Resolve`, `ShouldRun`, `Reset`,
`Run`, `RemoveAll` or `Symlink` is never swallowed: `Build` returns that
error.  An error from the final `os.Stat` of the cache layer path is not
returned: `Build` then takes the cache layer to be absent and returns, without
error, a result whose only layer is the modules layer. -/
theorem Build_surfaces_errors {σ : Type} (buildManager : BuildManager σ) (clock : Clock σ)
    (sys : System σ) (context : BuildContext σ) (w : σ) :
    (∀ ev ∈ (Build buildManager clock sys context w).calls, ∀ e, ev.err = some e →
      ev.isStat = false → (Build buildManager clock sys context w).err = some e) ∧
    (∀ path e, Event.Stat path (some e) ∈ (Build buildManager clock sys context w).calls →
      (Build buildManager clock sys context w).err = none ∧
      ∃ ml, (Build buildManager clock sys context w).result.Layers = [ml]) := by
  constructor
  · intro ev hev e hfail hstep
    obtain ⟨pre, post, hsplit⟩ := List.append_of_mem hev
    exact (Build_failed_call buildManager clock sys context w pre post ev e hsplit
      hfail hstep).2.1
  · intro path e hmem
    have h := Build_shape buildManager clock sys context w
    generalize (Build buildManager clock sys context w).calls = calls at h hmem ⊢
    generalize (Build buildManager clock sys context w).result = r at h ⊢
    generalize (Build buildManager clock sys context w).err = oe at h ⊢
    cases h with
    | executed ml cl sha t0 ml1 t1 fin r hfin =>
      cases hfin <;> simp [openingCalls] at hmem ⊢
    | reused ml cl sha fin r hfin =>
      cases hfin <;> simp [openingCalls] at hmem ⊢
    | _ => simp [openingCalls] at hmem

/-! ## The run decision -/

/-- C3, as stated, fails.  In the scripted world where both `Layers.Get` calls
and `Resolve` succeed, `ShouldRun` answers `(true, "abc", nil)` and
`Layer.Reset` is denied, `Run` is never invoked although `run` is true. -/
theorem Build_no_run_when_reset_fails :
    Event.ShouldRun "/workspace" [("cache_sha", "old")] true "abc" none ∈
      (Script.build Script.resetFails).calls ∧
    (∀ ev ∈ (Script.build Script.resetFails).calls, ev.isRun = false) ∧
    (Script.build Script.resetFails).err = some Script.denied := by
  decide

/-- The run decision decides the branch.  When `ShouldRun` answers true the
build goes on with a clock reading and the reset of the modules layer, and
with `Run` if the reset succeeds; when it answers false neither `Run` nor
`Reset` is called. -/
theorem Build_run_branch {σ : Type} (buildManager : BuildManager σ) (clock : Clock σ)
    (sys : System σ) (context : BuildContext σ) (w : σ)
    (wd : String) (md : MetadataMap) (run : Bool) (sha : String)
    (hsr : Event.ShouldRun wd md run sha none ∈ (Build buildManager clock sys context w).calls) :
    (run = true →
      ∃ ml cl t0 ml1 rerr tail,
        (Build buildManager clock sys context w).calls =
          openingCalls context.WorkingDir ml cl true sha ++
            Event.Now t0 :: Event.Reset ml ml1 rerr :: tail ∧
        ((∃ e, rerr = some e ∧ tail = []) ∨
          (rerr = none ∧ ∃ runErr rest,
            tail = Event.Run ml1.Path cl.Path context.WorkingDir runErr :: rest ∧
            ∀ x ∈ rest, x.isRun = false))) ∧
    (run = false → ∀ x ∈ (Build buildManager clock sys context w).calls,
      x.isRun = false ∧ x.isReset = false) := by
  have h := Build_shape buildManager clock sys context w
  generalize (Build buildManager clock sys context w).calls = calls at h hsr ⊢
  generalize (Build buildManager clock sys context w).result = r at h
  generalize (Build buildManager clock sys context w).err = oe at h
  cases h with
  | getModulesFailed l e => simp at hsr
  | getCacheFailed ml l e => simp at hsr
  | resolveFailed ml cl e => simp at hsr
  | shouldRunFailed ml cl run1 sha1 e => simp at hsr
  | resetFailed ml cl sha1 t0 ml1 e =>
    simp [openingCalls] at hsr
    obtain ⟨-, -, rfl, rfl⟩ := hsr
    exact ⟨fun _ => ⟨ml, cl, t0, ml1, some e, [], rfl, Or.inl ⟨e, rfl, rfl⟩⟩, by simp⟩
  | runFailed ml cl sha1 t0 ml1 e =>
    simp [openingCalls] at hsr
    obtain ⟨-, -, rfl, rfl⟩ := hsr
    exact ⟨fun _ => ⟨ml, cl, t0, ml1, none, _, rfl, Or.inr ⟨rfl, some e, [], rfl, by simp⟩⟩,
      by simp⟩
  | executed ml cl sha1 t0 ml1 t1 fin r hfin =>
    have hprobe : ∀ x ∈ fin, x.isRun = false := by
      cases hfin <;> simp [Event.isRun]
    have hsha : run = true ∧ sha = sha1 := by
      cases hfin <;> simp [openingCalls] at hsr <;> simp [hsr]
    obtain ⟨rfl, rfl⟩ := hsha
    refine ⟨fun _ => ⟨ml, cl, t0, ml1, none, _, by simp [openingCalls],
      Or.inr ⟨rfl, none, Event.Now t1 :: fin, rfl, ?_⟩⟩, by simp⟩
    intro x hx
    rcases List.mem_cons.1 hx with rfl | hx
    · rfl
    · exact hprobe x hx
  | removeAllFailed ml cl sha1 e =>
    simp [openingCalls] at hsr
    obtain ⟨-, -, rfl, rfl⟩ := hsr
    simp [openingCalls, Event.isRun, Event.isReset]
  | symlinkFailed ml cl sha1 e =>
    simp [openingCalls] at hsr
    obtain ⟨-, -, rfl, rfl⟩ := hsr
    simp [openingCalls, Event.isRun, Event.isReset]
  | reused ml cl sha1 fin r hfin =>
    cases hfin <;> simp [openingCalls] at hsr <;> obtain ⟨-, -, rfl, rfl⟩ := hsr <;>
      simp [openingCalls, Event.isRun, Event.isReset]

/-- C3, amended.  In every build in which both `Layers.Get` calls and
`Resolve` succeed and `ShouldRun` answers `(run, sha, nil)`: when `run` is
true, the build reads the clock and resets the modules layer that
`Layers.Get` returned; if the reset fails nothing more is called, and if it
succeeds the very next call is `Run` with the arguments (path of the reset
modules layer, path of the cache layer, working directory) in that order, and
no later call is a `Run`.  When `run` is false, `Run` (and `Reset`) is never
invoked.  Hence `Run` is invoked if and only if `run` is true and the reset
succeeds, and then exactly once. -/
theorem Build_run_iff {σ : Type} (buildManager : BuildManager σ) (clock : Clock σ)
    (sys : System σ) (context : BuildContext σ) (w : σ)
    (wd : String) (md : MetadataMap) (run : Bool) (sha : String)
    (hsr : Event.ShouldRun wd md run sha none ∈ (Build buildManager clock sys context w).calls) :
    (run = true →
      ∃ ml cl t0 ml1 rerr tail,
        (Build buildManager clock sys context w).calls =
          openingCalls context.WorkingDir ml cl true sha ++
            Event.Now t0 :: Event.Reset ml ml1 rerr :: tail ∧
        ((∃ e, rerr = some e ∧ tail = []) ∨
          (rerr = none ∧ ∃ runErr rest,
            tail = Event.Run ml1.Path cl.Path context.WorkingDir runErr :: rest ∧
            ∀ x ∈ rest, x.isRun = false))) ∧
    (run = false → ∀ x ∈ (Build buildManager clock sys context w).calls,
      x.isRun = false ∧ x.isReset = false) ∧
    ((∃ ev ∈ (Build buildManager clock sys context w).calls, ev.isRun = true) ↔
      (run = true ∧
        ∃ l l1, Event.Reset l l1 none ∈ (Build buildManager clock sys context w).calls)) ∧
    ((Build buildManager clock sys context w).calls.filter Event.isRun).length ≤ 1 ∧
    (∀ ev ∈ (Build buildManager clock sys context w).calls, ev.isRun = true →
      ∃ ml cl t0 ml1 rerr rest,
        (Build buildManager clock sys context w).calls =
          openingCalls context.WorkingDir ml cl true sha ++
            [Event.Now t0, Event.Reset ml ml1 none, ev] ++ rest ∧
        ev = Event.Run ml1.Path cl.Path context.WorkingDir rerr ∧
        ∀ x ∈ rest, x.isRun = false) := by
  refine ⟨(Build_run_branch buildManager clock sys context w wd md run sha hsr).1,
    (Build_run_branch buildManager clock sys context w wd md run sha hsr).2, ?_⟩
  have h := Build_shape buildManager clock sys context w
  generalize (Build buildManager clock sys context w).calls = calls at h hsr ⊢
  generalize (Build buildManager clock sys context w).result = r at h
  generalize (Build buildManager clock sys context w).err = oe at h
  cases h with
  | getModulesFailed l e => simp at hsr
  | getCacheFailed ml l e => simp at hsr
  | resolveFailed ml cl e => simp at hsr
  | shouldRunFailed ml cl run1 sha1 e => simp at hsr
  | resetFailed ml cl sha1 t0 ml1 e =>
    simp [openingCalls] at hsr
    obtain ⟨-, -, rfl, rfl⟩ := hsr
    simp [openingCalls, Event.isRun]
  | removeAllFailed ml cl sha1 e =>
    simp [openingCalls] at hsr
    obtain ⟨-, -, rfl, rfl⟩ := hsr
    simp [openingCalls, Event.isRun]
  | symlinkFailed ml cl sha1 e =>
    simp [openingCalls] at hsr
    obtain ⟨-, -, rfl, rfl⟩ := hsr
    simp [openingCalls, Event.isRun]
  | reused ml cl sha1 fin r hfin =>
    cases hfin <;> simp [openingCalls] at hsr <;> obtain ⟨-, -, rfl, rfl⟩ := hsr <;>
      simp [openingCalls, Event.isRun]
  | runFailed ml cl sha1 t0 ml1 e =>
    simp [openingCalls] at hsr
    obtain ⟨-, -, rfl, rfl⟩ := hsr
    have hf : (openingCalls context.WorkingDir ml cl true sha ++
        [Event.Now t0, Event.Reset ml ml1 none,
          Event.Run ml1.Path cl.Path context.WorkingDir (some e)]).filter Event.isRun
        = [Event.Run ml1.Path cl.Path context.WorkingDir (some e)] := by
      simp [openingCalls, Event.isRun]
    refine ⟨⟨fun _ => ⟨rfl, ml, ml1, by simp [openingCalls]⟩,
      fun _ => ⟨Event.Run ml1.Path cl.Path context.WorkingDir (some e),
        by simp [openingCalls], rfl⟩⟩, by rw [hf]; simp, ?_⟩
    intro ev hev hrun
    have hmem := List.mem_filter.2 ⟨hev, hrun⟩
    rw [hf, List.mem_singleton] at hmem
    subst hmem
    exact ⟨ml, cl, t0, ml1, some e, [], rfl, rfl, by simp⟩
  | executed ml cl sha1 t0 ml1 t1 fin r hfin =>
    have hprobe : ∀ x ∈ fin, x.isRun = false := by
      cases hfin <;> simp [Event.isRun]
    have hf : (openingCalls context.WorkingDir ml cl true sha1 ++
        [Event.Now t0, Event.Reset ml ml1 none,
          Event.Run ml1.Path cl.Path context.WorkingDir none, Event.Now t1] ++ fin).filter
          Event.isRun
        = [Event.Run ml1.Path cl.Path context.WorkingDir none] := by
      simp [openingCalls, Event.isRun, List.filter_eq_nil_iff]
      simpa using hprobe
    have hsha : run = true ∧ sha = sha1 := by
      cases hfin <;> simp [openingCalls] at hsr <;> simp [hsr]
    obtain ⟨rfl, rfl⟩ := hsha
    refine ⟨⟨fun _ => ⟨rfl, ml, ml1, by simp [openingCalls]⟩,
      fun _ => ⟨Event.Run ml1.Path cl.Path context.WorkingDir none,
        by simp [openingCalls], rfl⟩⟩, by rw [hf]; simp, ?_⟩
    intro ev hev hrun
    have hmem := List.mem_filter.2 ⟨hev, hrun⟩
    rw [hf, List.mem_singleton] at hmem
    subst hmem
    refine ⟨ml, cl, t0, ml1, none, Event.Now t1 :: fin, by simp [openingCalls], rfl, ?_⟩
    intro x hx
    rcases List.mem_cons.1 hx with rfl | hx
    · rfl
    · exact hprobe x hx

/-- C3, amended, at work: in the scripted world where every call succeeds and
the process asks to run, the modules layer is reset and `Run` is invoked,
once. -/
theorem Build_run_iff_witness :
    Event.ShouldRun "/workspace" [("cache_sha", "old")] true "abc" none ∈
      (Script.build Script.allGood).calls ∧
    Event.Reset (Script.layer "modules" [("cache_sha", "old")] true false)
      (Script.layer "modules" [] true false) none ∈ (Script.build Script.allGood).calls ∧
    (∃ ev ∈ (Script.build Script.allGood).calls, ev.isRun = true) ∧
    ((Script.build Script.allGood).calls.filter Event.isRun).length ≤ 1 :=
  have h := Build_run_iff Script.buildManager Script.theClock Script.system Script.context
    Script.allGood "/workspace" [("cache_sha", "old")] true "abc" (by decide)
  ⟨by decide, by decide,
    h.2.2.1.mpr ⟨rfl, Script.layer "modules" [("cache_sha", "old")] true false,
      Script.layer "modules" [] true false, by decide⟩,
    h.2.2.2.1⟩

/-! ## The execute path -/

/-- C4.  In every build in which `ShouldRun` answers `(true, sha, nil)` and
`Reset` and `Run` succeed, `Build` returns without error, the clock is read
right after `Run` completed (and nothing but the two checks of the cache layer
path follows), and the modules layer of the returned result carries as its
metadata exactly the two keys `built_at`, the time of that reading formatted
as RFC3339Nano, and `cache_sha`, the `sha` answered by `ShouldRun`.  Whatever
metadata the layer carried before is gone. -/
theorem Build_records_metadata {σ : Type} (buildManager : BuildManager σ) (clock : Clock σ)
    (sys : System σ) (context : BuildContext σ) (w : σ)
    (wd : String) (md : MetadataMap) (sha : String) (l l1 : Layer) (a b c : String)
    (hsr : Event.ShouldRun wd md true sha none ∈
      (Build buildManager clock sys context w).calls)
    (hreset : Event.Reset l l1 none ∈ (Build buildManager clock sys context w).calls)
    (hrun : Event.Run a b c none ∈ (Build buildManager clock sys context w).calls) :
    (Build buildManager clock sys context w).err = none ∧
    ∃ t pre post ml rest,
      (Build buildManager clock sys context w).calls =
        pre ++ Event.Run a b c none :: Event.Now t :: post ∧
      (∀ x ∈ post, x.isProbe = true) ∧
      (Build buildManager clock sys context w).result.Layers = ml :: rest ∧
      ml.Metadata = [("built_at", sys.FormatRFC3339Nano t), ("cache_sha", sha)] := by
  have h := Build_shape buildManager clock sys context w
  generalize (Build buildManager clock sys context w).calls = calls at h hsr hreset hrun ⊢
  generalize (Build buildManager clock sys context w).result = r at h ⊢
  generalize (Build buildManager clock sys context w).err = oe at h ⊢
  cases h with
  | executed ml cl sha1 t0 ml1 t1 fin r hfin =>
    have hprobe : ∀ x ∈ fin, x.isProbe = true := by
      cases hfin <;> simp [Event.isProbe]
    have hsha : sha = sha1 := by
      cases hfin <;> simp [openingCalls] at hsr <;> simp [hsr]
    have hargs : a = ml1.Path ∧ b = cl.Path ∧ c = context.WorkingDir := by
      cases hfin <;> simp [openingCalls] at hrun <;> simp [hrun]
    obtain ⟨rfl, rfl, rfl⟩ := hargs
    subst hsha
    refine ⟨rfl, t1,
      openingCalls context.WorkingDir ml cl true sha ++ [Event.Now t0, Event.Reset ml ml1 none], fin, Build.record sys ml1 t1 sha, r.Layers.tail, ?_, hprobe, ?_, ?_⟩
    · simp [openingCalls]
    · cases hfin <;> rfl
    · rfl
  | reused ml cl sha1 fin r hfin =>
    cases hfin <;> simp [openingCalls] at hrun
  | _ => simp [openingCalls] at hrun

/-- C4 at work: in the scripted world where every call succeeds, the clock
reads 101 after `Run`, and the modules layer, which came with the metadata
`cache_sha = old`, is returned with `built_at = T101` and `cache_sha = abc`. -/
theorem Build_records_metadata_witness :
    Event.ShouldRun "/workspace" [("cache_sha", "old")] true "abc" none ∈
      (Script.build Script.allGood).calls ∧
    Event.Reset (Script.layer "modules" [("cache_sha", "old")] true false)
      (Script.layer "modules" [] true false) none ∈ (Script.build Script.allGood).calls ∧
    Event.Run "/layers/modules" "/layers/npm-cache" "/workspace" none ∈
      (Script.build Script.allGood).calls ∧
    (Script.build Script.allGood).err = none ∧
    (Script.build Script.allGood).result.Layers.map (fun ml => ml.Metadata) =
      [[("built_at", "T101"), ("cache_sha", "abc")], []] :=
  have h := Build_records_metadata Script.buildManager Script.theClock Script.system
    Script.context Script.allGood "/workspace" [("cache_sha", "old")] "abc"
    (Script.layer "modules" [("cache_sha", "old")] true false)
    (Script.layer "modules" [] true false)
    "/layers/modules" "/layers/npm-cache" "/workspace" (by decide) (by decide) (by decide)
  ⟨by decide, by decide, by decide, h.1, by decide⟩

/-- C7, as stated, fails.  On the execute path in the scripted world (`Run`
succeeded), the launch environment of the returned modules layer receives the
two `NPM_CONFIG` overrides and nothing about `PATH`; the `PATH` entry goes to
the shared environment, which applies to the build as well, and it is an
append, not a prepend. -/
theorem Build_path_not_launch_scoped :
    Event.Run "/layers/modules" "/layers/npm-cache" "/workspace" none ∈
      (Script.build Script.allGood).calls ∧
    ((Script.build Script.allGood).result.Layers.map (fun ml => ml.LaunchEnv.ops)).head? =
      some [EnvOp.Override "NPM_CONFIG_LOGLEVEL" "error",
        EnvOp.Override "NPM_CONFIG_PRODUCTION" "true"] ∧
    ((Script.build Script.allGood).result.Layers.map (fun ml => ml.SharedEnv.ops)).head? =
      some [EnvOp.Append "PATH" "/layers/modules/node_modules/.bin" ":"] := by
  decide

/-- C7, amended.  On the execute path of `Build` (the reset and `Run`
succeeded), the modules layer of the returned result is the reset layer with
`<modules layer path>/node_modules/.bin` appended to `PATH`, with the path
list separator as delimiter, in the layer's shared environment, which applies
to build and launch alike.  The launch environment receives the two overrides
`NPM_CONFIG_LOGLEVEL=error` and `NPM_CONFIG_PRODUCTION=true` and no `PATH`
change, and the build environment is left as the reset left it. -/
theorem Build_path_env {σ : Type} (buildManager : BuildManager σ) (clock : Clock σ)
    (sys : System σ) (context : BuildContext σ) (w : σ)
    (l l1 : Layer) (a b c : String)
    (hreset : Event.Reset l l1 none ∈ (Build buildManager clock sys context w).calls)
    (hrun : Event.Run a b c none ∈ (Build buildManager clock sys context w).calls) :
    ∃ ml rest,
      (Build buildManager clock sys context w).result.Layers = ml :: rest ∧
      ml.Path = l1.Path ∧
      ml.SharedEnv.ops = l1.SharedEnv.ops ++
        [EnvOp.Append "PATH" (filepathJoin [l1.Path, "node_modules", ".bin"])
          sys.PathListSeparator] ∧
      ml.LaunchEnv.ops = l1.LaunchEnv.ops ++
        [EnvOp.Override "NPM_CONFIG_LOGLEVEL" "error",
          EnvOp.Override "NPM_CONFIG_PRODUCTION" "true"] ∧
      ml.BuildEnv = l1.BuildEnv := by
  have h := Build_shape buildManager clock sys context w
  generalize (Build buildManager clock sys context w).calls = calls at h hreset hrun ⊢
  generalize (Build buildManager clock sys context w).result = r at h ⊢
  generalize (Build buildManager clock sys context w).err = oe at h
  cases h with
  | executed ml cl sha1 t0 ml1 t1 fin r hfin =>
    have hl : l1 = ml1 := by
      cases hfin <;> simp [openingCalls] at hreset <;> simp [hreset]
    subst hl
    refine ⟨Build.record sys l1 t1 sha1, r.Layers.tail, ?_, rfl, ?_, ?_, rfl⟩
    · cases hfin <;> rfl
    · simp [Build.record, Environment.Append]
    · simp [Build.record, Environment.Override]
  | reused ml cl sha1 fin r hfin =>
    cases hfin <;> simp [openingCalls] at hrun
  | _ => simp [openingCalls] at hrun

/-- C7, amended, at work in the scripted world where every call succeeds. -/
theorem Build_path_env_witness :
    Event.Reset (Script.layer "modules" [("cache_sha", "old")] true false)
      (Script.layer "modules" [] true false) none ∈ (Script.build Script.allGood).calls ∧
    Event.Run "/layers/modules" "/layers/npm-cache" "/workspace" none ∈
      (Script.build Script.allGood).calls ∧
    ∃ ml rest,
      (Script.build Script.allGood).result.Layers = ml :: rest ∧
      ml.Path = "/layers/modules" ∧
      ml.SharedEnv.ops = [] ++
        [EnvOp.Append "PATH" (filepathJoin ["/layers/modules", "node_modules", ".bin"]) ":"] ∧
      ml.LaunchEnv.ops = [] ++
        [EnvOp.Override "NPM_CONFIG_LOGLEVEL" "error",
          EnvOp.Override "NPM_CONFIG_PRODUCTION" "true"] ∧
      ml.BuildEnv = ⟨[]⟩ :=
  ⟨by decide, by decide,
    Build_path_env Script.buildManager Script.theClock Script.system Script.context
      Script.allGood (Script.layer "modules" [("cache_sha", "old")] true false)
      (Script.layer "modules" [] true false)
      "/layers/modules" "/layers/npm-cache" "/workspace" (by decide) (by decide)⟩

/-! ## The skip path -/

/-- C8.  On the skip path of `Build` (`ShouldRun` answered `(false, sha, nil)`)
the calls that follow the run decision are: `os.RemoveAll` of
`<workingDir>/node_modules`; then, if that succeeded, `os.Symlink` creating
`<workingDir>/node_modules` as a link to `<modules layer path>/node_modules`;
then, if that succeeded, nothing but the read-only checks of the cache layer
path.  Neither `Reset` nor `Run` is called anywhere in the build, and when the
build returns without error the modules layer of its result is the very layer
that `Layers.Get` returned, metadata and environments included. -/
theorem Build_reuse_frame {σ : Type} (buildManager : BuildManager σ) (clock : Clock σ)
    (sys : System σ) (context : BuildContext σ) (w : σ)
    (wd : String) (md : MetadataMap) (sha : String)
    (hsr : Event.ShouldRun wd md false sha none ∈
      (Build buildManager clock sys context w).calls) :
    ∃ ml cl tail,
      (Build buildManager clock sys context w).calls =
        openingCalls context.WorkingDir ml cl false sha ++ tail ∧
      (∀ x ∈ (Build buildManager clock sys context w).calls,
        x.isReset = false ∧ x.isRun = false) ∧
      ((∃ e, tail = [Event.RemoveAll (filepathJoin [context.WorkingDir, "node_modules"])
            (some e)] ∧
          (Build buildManager clock sys context w).err = some e) ∨
        (∃ e, tail = [Event.RemoveAll (filepathJoin [context.WorkingDir, "node_modules"]) none,
            Event.Symlink (filepathJoin [ml.Path, "node_modules"])
              (filepathJoin [context.WorkingDir, "node_modules"]) (some e)] ∧
          (Build buildManager clock sys context w).err = some e) ∨
        (∃ fin rest,
          tail = [Event.RemoveAll (filepathJoin [context.WorkingDir, "node_modules"]) none,
            Event.Symlink (filepathJoin [ml.Path, "node_modules"])
              (filepathJoin [context.WorkingDir, "node_modules"]) none] ++ fin ∧
          (∀ x ∈ fin, x.isProbe = true) ∧
          (Build buildManager clock sys context w).err = none ∧
          (Build buildManager clock sys context w).result.Layers = ml :: rest)) := by
  have h := Build_shape buildManager clock sys context w
  generalize (Build buildManager clock sys context w).calls = calls at h hsr ⊢
  generalize (Build buildManager clock sys context w).result = r at h ⊢
  generalize (Build buildManager clock sys context w).err = oe at h ⊢
  cases h with
  | removeAllFailed ml cl sha1 e =>
    simp [openingCalls] at hsr
    obtain ⟨-, -, rfl⟩ := hsr
    exact ⟨ml, cl, _, rfl, by simp [openingCalls, Event.isReset, Event.isRun],
      Or.inl ⟨e, rfl, rfl⟩⟩
  | symlinkFailed ml cl sha1 e =>
    simp [openingCalls] at hsr
    obtain ⟨-, -, rfl⟩ := hsr
    exact ⟨ml, cl, _, rfl, by simp [openingCalls, Event.isReset, Event.isRun],
      Or.inr (Or.inl ⟨e, rfl, rfl⟩)⟩
  | reused ml cl sha1 fin r hfin =>
    have hsha : sha = sha1 := by
      cases hfin <;> simp [openingCalls] at hsr <;> simp [hsr]
    subst hsha
    refine ⟨ml, cl, _, List.append_assoc _ _ _, ?_, Or.inr (Or.inr ⟨fin, r.Layers.tail, rfl, ?_,
      rfl, ?_⟩)⟩
    · cases hfin <;> simp [openingCalls, Event.isReset, Event.isRun]
    · cases hfin <;> simp [Event.isProbe]
    · cases hfin <;> rfl
  | executed ml cl sha1 t0 ml1 t1 fin r hfin =>
    cases hfin <;> simp [openingCalls] at hsr
  | _ => simp [openingCalls] at hsr

/-- C8 at work: in the scripted world where the process does not ask to run,
the build returns without error and the modules layer of the result is the
layer `Layers.Get` returned, still carrying the metadata `cache_sha = old`. -/
theorem Build_reuse_frame_witness :
    Event.ShouldRun "/workspace" [("cache_sha", "old")] false "abc" none ∈
      (Script.build Script.cached).calls ∧
    (∀ x ∈ (Script.build Script.cached).calls, x.isReset = false ∧ x.isRun = false) ∧
    (Script.build Script.cached).result.Layers.head? =
      some (Script.layer "modules" [("cache_sha", "old")] true false) :=
  have h := Build_reuse_frame Script.buildManager Script.theClock Script.system
    Script.context Script.cached "/workspace" [("cache_sha", "old")] "abc" (by decide)
  ⟨by decide, h.choose_spec.choose_spec.choose_spec.2.1, by decide⟩

/-! ## The returned result -/

/-- C5, as stated, fails.  Whether the cache layer is returned follows the
answers of the two checks, not what the cache layer path holds.  Where the
path is a directory with an entry but may not be reached, `os.Stat` is denied
and the build succeeds without the cache layer; where the path is a regular
file, `os.Stat` succeeds, `fs.IsEmptyDir` answers false, and the build
succeeds with the cache layer although the path is not a non-empty
directory. -/
theorem Build_cache_layer_follows_checks :
    (Disk.deniedDir.cachePath.isNonEmptyDir = true ∧
      (Disk.build Disk.deniedDir).err = none ∧
      (Disk.build Disk.deniedDir).result.Layers.map (fun l => l.Name) = ["modules"]) ∧
    (Disk.regularFile.cachePath.isNonEmptyDir = false ∧
      (Disk.build Disk.regularFile).err = none ∧
      (Disk.build Disk.regularFile).result.Layers.map (fun l => l.Name)
        = ["modules", "npm-cache"]) := by
  decide

/-- C5, amended.  Every build that completes without error, on either path,
returns the plan of its context unchanged, the single process of type `web`
with the command `npm start`, and as layers the modules layer first, followed
by the cache layer if and only if `os.Stat` of the cache layer path answered
without error and `fs.IsEmptyDir` of it answered false.  The modules layer is,
when `ShouldRun` answered false, the layer `Layers.Get` returned, and, when it
answered true, the reset layer with the metadata and environment recorded
after `Run`. -/
theorem Build_result_shape {σ : Type} (buildManager : BuildManager σ) (clock : Clock σ)
    (sys : System σ) (context : BuildContext σ) (w : σ)
    (herr : (Build buildManager clock sys context w).err = none) :
    (Build buildManager clock sys context w).result.Plan = context.Plan ∧
    (Build buildManager clock sys context w).result.Processes =
      [{ ProcessType := "web", Command := "npm start" }] ∧
    ∃ ml cl run sha tail final,
      (Build buildManager clock sys context w).calls =
        openingCalls context.WorkingDir ml cl run sha ++ tail ∧
      ((run = false ∧ final = ml) ∨
        (run = true ∧ ∃ t0 ml1 t1 fin,
          tail = [Event.Now t0, Event.Reset ml ml1 none,
            Event.Run ml1.Path cl.Path context.WorkingDir none, Event.Now t1] ++ fin ∧
          final = Build.record sys ml1 t1 sha)) ∧
      (Build buildManager clock sys context w).result.Layers =
        if Event.Stat cl.Path none ∈ (Build buildManager clock sys context w).calls ∧
            Event.IsEmptyDir cl.Path false ∈ (Build buildManager clock sys context w).calls
        then [final, cl] else [final] := by
  have h := Build_shape buildManager clock sys context w
  generalize (Build buildManager clock sys context w).calls = calls at h ⊢
  generalize (Build buildManager clock sys context w).result = r at h ⊢
  generalize (Build buildManager clock sys context w).err = oe at h herr
  subst herr
  cases h with
  | executed ml cl sha t0 ml1 t1 fin r hfin =>
    refine ⟨by cases hfin <;> rfl, by cases hfin <;> rfl, ml, cl, true, sha, _,
      Build.record sys ml1 t1 sha, List.append_assoc _ _ _,
      Or.inr ⟨rfl, t0, ml1, t1, fin, rfl, rfl⟩, ?_⟩
    cases hfin <;> simp [openingCalls]
  | reused ml cl sha fin r hfin =>
    refine ⟨by cases hfin <;> rfl, by cases hfin <;> rfl, ml, cl, false, sha, _, ml,
      List.append_assoc _ _ _, Or.inl ⟨rfl, rfl⟩, ?_⟩
    cases hfin <;> simp [openingCalls]

/-- C5, amended, at work: in the scripted world where every call succeeds and
the cache layer directory is not empty, the result holds two layers, modules
first. -/
theorem Build_result_shape_witness :
    (Script.build Script.allGood).err = none ∧
    (Script.build Script.allGood).result.Plan = Script.context.Plan ∧
    (Script.build Script.allGood).result.Processes =
      [{ ProcessType := "web", Command := "npm start" }] ∧
    (Script.build Script.allGood).result.Layers.map (fun l => l.Name) =
      ["modules", "npm-cache"] :=
  have h := Build_result_shape Script.buildManager Script.theClock Script.system
    Script.context Script.allGood (by decide)
  ⟨by decide, h.1, h.2.1, by decide⟩

end Npm
